import Mathlib

/-!
Shallow embedding of the scraper pipeline in `scraper.py`.

The program drives a browser through result pages, extracts four fields
per listing node with independent fallbacks, downloads thumbnails over
HTTP, and writes the records to a tabular file.  External collaborators
(browser session, HTTP client, file system, console) are modelled as
explicit data: a page oracle `Nat → PageLoad`, a network oracle
`String → NetOutcome`, a list of written file paths, and a list of log
entries mirroring the `print` calls of the source.
-/

set_option autoImplicit false

namespace Scraper

/-- Outcome of one HTTP GET (`requests.get`): a response with a status
code, or a raised exception (timeout or transport error) carrying the
message that ends up in the diagnostic. -/
inductive NetOutcome where
  | resp (status : Nat)
  | exc (msg : String)
deriving DecidableEq, Repr

/-- Console output of the source, one constructor per `print` call. -/
inductive LogEntry where
  | scraping (page : Nat) (url : String)
  | timeoutPage (page : Nat)
  | errorItem
  | errorDownload (url : String) (msg : String)
  | noProducts
  | savedCsv (count : Nat) (filename : String)
deriving DecidableEq, Repr

/-- Python `str.rstrip()` on the character list of a string: drop the
trailing whitespace run. -/
def pyRstrip (l : List Char) : List Char :=
  (l.reverse.dropWhile Char.isWhitespace).reverse

/-- The character filter of `download_image`:
`c.isalnum() or c in (' ', '.', '_')`. -/
def keepChar (c : Char) : Bool :=
  c.isAlphanum || c == ' ' || c == '.' || c == '_'

/-- `"".join([c for c in filename if c.isalnum() or c in (' ', '.', '_')]).rstrip()` -/
def cleanFilename (s : String) : String :=
  String.mk (pyRstrip (s.data.filter keepChar))

/-- Observable result of one `download_image` call: the returned value
(`None` modelled as `none`), the number of HTTP GETs issued, the file
paths written, and the diagnostics printed. -/
structure DownloadResult where
  result : Option String
  netCalls : Nat
  files : List String
  logs : List LogEntry
deriving DecidableEq, Repr

/-- `download_image(url, folder, filename)` from the source.  `url` is
`Option String`; `if not url` is Python truthiness, so `none` and the
empty string both take the early return.  Only status 200 writes a file
and returns the sanitized name; any other status falls through to
`return None` with no print; a raised exception is caught and printed. -/
def download_image (url : Option String) (folder : String) (filename : String)
    (net : String → NetOutcome) : DownloadResult :=
  match url with
  | none => ⟨none, 0, [], []⟩
  | some u =>
    if u.isEmpty then ⟨none, 0, [], []⟩
    else
      match net u with
      | NetOutcome.resp status =>
        if status = 200 then
          let clean := cleanFilename filename
          ⟨some (clean ++ ".jpg"), 1, [folder ++ "/" ++ clean ++ ".jpg"], []⟩
        else ⟨none, 1, [], []⟩
      | NetOutcome.exc msg => ⟨none, 1, [], [LogEntry.errorDownload u msg]⟩

/-- The record dict built by `get_products`: exactly the four keys of the
dict literal, in insertion order.  `image_filename` is `Option String`
because the source can leave the Python value `None` there (failed
download); the sentinel for an absent image reference is the string
`"N/A"`, i.e. `some "N/A"`. -/
structure ProductRecord where
  title : String
  price : String
  rating : String
  image_filename : Option String
deriving DecidableEq, Repr

/-- One rendered listing node, as seen through the find/read calls of the
source.  Each field is `none` when the corresponding element or
attribute is absent (`NoSuchElementException`, or `get_attribute`
returning `None`).  `stale` models the node raising an unexpected
error, caught by the outer per-item `except Exception`. -/
structure Node where
  h2Text : Option String
  priceWhole : Option String
  priceFraction : Option String
  iconAlt : Option String
  imageSrc : Option String
  stale : Bool
deriving DecidableEq, Repr

/-- Title extraction: `item.find_element(By.TAG_NAME, 'h2').text.strip()`,
`"N/A"` when the element is absent. -/
def titleOf : Option String → String
  | none => "N/A"
  | some t => t.trim

/-- Price extraction: read `span.a-price-whole` then
`span.a-price-fraction`; either absence raises before the f-string, so
any absence yields `"N/A"`. -/
def priceOf : Option String → Option String → String
  | none, _ => "N/A"
  | some _, none => "N/A"
  | some w, some f => "$" ++ w ++ "." ++ f

/-- Python `str.split(sep)` for a one-character separator: splitting the
empty string gives `[""]`, and the pieces between separators are kept
even when empty. -/
def pySplit (sep : Char) : List Char → List (List Char)
  | [] => [[]]
  | c :: cs =>
    if c = sep then [] :: pySplit sep cs
    else
      match pySplit sep cs with
      | [] => [[c]]
      | t :: ts => (c :: t) :: ts

/-- Rating extraction:
`rating_element.get_attribute('innerHTML').split(' ')[0]`, `"N/A"` when
the element is absent. -/
def ratingOf : Option String → String
  | none => "N/A"
  | some s => String.mk ((pySplit ' ' s.data).headD [])

/-- Side effects of one per-item extraction pass: how many times
`download_image` was invoked, plus the effects of that call. -/
structure ExtractEff where
  fetchCalls : Nat
  netCalls : Nat
  files : List String
  logs : List LogEntry
deriving DecidableEq, Repr

/-- The body of the per-item `try` block of `get_products`.  `idx` is
`len(products)` at the time of the call.  Returns `none` when the node
raises an unexpected error (the outer `except Exception` path);
otherwise the constructed record together with the download effects.
`if image_url:` is Python truthiness, so an empty-string `src` also
leaves the `"N/A"` sentinel without calling `download_image`. -/
def extract (node : Node) (idx : Nat) (net : String → NetOutcome) :
    Option (ProductRecord × ExtractEff) :=
  if node.stale then none
  else
    let title := titleOf node.h2Text
    let price := priceOf node.priceWhole node.priceFraction
    let rating := ratingOf node.iconAlt
    match node.imageSrc with
    | none => some (⟨title, price, rating, some "N/A"⟩, ⟨0, 0, [], []⟩)
    | some u =>
      if u.isEmpty then some (⟨title, price, rating, some "N/A"⟩, ⟨0, 0, [], []⟩)
      else
        let safe_title := if title ≠ "N/A" then title.take 30 else "product"
        let dl := download_image (some u) "images"
          (safe_title ++ "_" ++ toString idx) net
        some (⟨title, price, rating, dl.result⟩, ⟨1, dl.netCalls, dl.files, dl.logs⟩)

/-- Outcome of navigating to one result page and waiting up to 15s for
`div.s-result-item`: a `TimeoutException`, or a loaded page whose
search-result nodes are `items`. -/
inductive PageLoad where
  | timeout
  | loaded (items : List Node)
deriving DecidableEq, Repr

/-- `base_url = f"https://www.amazon.com/s?k={keyword.replace(' ', '+')}"` -/
def base_url (keyword : String) : String :=
  "https://www.amazon.com/s?k=" ++ keyword.replace " " "+"

/-- `url = f"{base_url}&page={page}"` -/
def pageUrl (keyword : String) (page : Nat) : String :=
  base_url keyword ++ "&page=" ++ toString page

/-- Accumulated state of one `get_products` run: the `products` list plus
the observable side effects so far. -/
structure RunState where
  products : List ProductRecord
  fetchCalls : Nat
  netCalls : Nat
  files : List String
  logs : List LogEntry
deriving Repr

/-- One iteration of the inner `for item in items` loop.  A raised
unexpected error prints and skips the node; otherwise the record is
appended and the download effects accumulate.  The sequence index passed
to the extraction is `len(products)` at that moment. -/
def stepItem (net : String → NetOutcome) (st : RunState) (node : Node) : RunState :=
  match extract node st.products.length net with
  | none => { st with logs := st.logs ++ [LogEntry.errorItem] }
  | some (r, eff) =>
    { products := st.products ++ [r]
      fetchCalls := st.fetchCalls + eff.fetchCalls
      netCalls := st.netCalls + eff.netCalls
      files := st.files ++ eff.files
      logs := st.logs ++ eff.logs }

/-- One iteration of the outer `for page in range(1, pages + 1)` loop:
print the scraping line, navigate and wait (the `driver` oracle), and on
timeout print and `continue`, else run the item loop. -/
def stepPage (driver : Nat → PageLoad) (net : String → NetOutcome)
    (keyword : String) (st : RunState) (page : Nat) : RunState :=
  let st1 : RunState :=
    { st with logs := st.logs ++ [LogEntry.scraping page (pageUrl keyword page)] }
  match driver page with
  | PageLoad.timeout => { st1 with logs := st1.logs ++ [LogEntry.timeoutPage page] }
  | PageLoad.loaded items => items.foldl (stepItem net) st1

/-- The empty run state: `products = []`, nothing printed or written. -/
def initState : RunState := ⟨[], 0, 0, [], []⟩

/-- `get_products(driver, keyword, pages)`: the page loop over
`range(1, pages + 1)` folded over the initial state. -/
def get_products (driver : Nat → PageLoad) (keyword : String) (pages : Nat)
    (net : String → NetOutcome) : RunState :=
  (List.range' 1 pages).foldl (stepPage driver net keyword) initState

/-- `products[0].keys()`: the key set of a record dict, in the insertion
order of the dict literal. -/
def recordKeys (_ : ProductRecord) : List String :=
  ["title", "price", "rating", "image_filename"]

/-- The row `csv.DictWriter` writes for one record, fields in key order;
a Python `None` value is serialized as the empty string. -/
def rowOf (r : ProductRecord) : List String :=
  [r.title, r.price, r.rating,
   match r.image_filename with | none => "" | some s => s]

/-- Observable outcome of `save_to_csv`: the rows of the file written
(`none` when no file is created) and the prints. -/
structure CsvOut where
  file : Option (List (List String))
  logs : List LogEntry
deriving DecidableEq, Repr

/-- `save_to_csv(products, filename)`: early return with a notice when
the list is empty; otherwise the header row from the first record
followed by one row per record.  (The `except` branch around the file
write is an I/O fault path; the file system is modelled as reliable
here, so the success print is always reached in the non-empty case.) -/
def save_to_csv (products : List ProductRecord) (filename : String) : CsvOut :=
  match products with
  | [] => ⟨none, [LogEntry.noProducts]⟩
  | r :: rs =>
    ⟨some (recordKeys r :: (r :: rs).map rowOf),
     [LogEntry.savedCsv (r :: rs).length filename]⟩

/-! ### Spec-side definitions

These follow the wording of the specification and are compared with the
source-side functions above in the claim theorems. -/

/-- The listing nodes a page contributes: none on timeout, its items
otherwise (spec 4.1 steps 3 and 4). -/
def pageNodes (driver : Nat → PageLoad) (page : Nat) : List Node :=
  match driver page with
  | PageLoad.timeout => []
  | PageLoad.loaded items => items

/-- The nodes of the whole run in page-then-position discovery order
(spec 3, ResultSet: page ascending, then in-page listing order). -/
def harvestNodes (driver : Nat → PageLoad) (pages : Nat) : List Node :=
  (List.range' 1 pages).flatMap (pageNodes driver)

/-- In-order extraction of a node sequence, threading the sequence index
exactly when a record is produced: the spec-side description of the
ResultSet contents. -/
def extractSeq (net : String → NetOutcome) : List Node → Nat → List ProductRecord
  | [], _ => []
  | n :: ns, i =>
    match extract n i net with
    | none => extractSeq net ns i
    | some (r, _) => r :: extractSeq net ns (i + 1)

/-- Recognizer for the scraping line of page `k` among the logs. -/
def isScraping (k : Nat) : LogEntry → Bool
  | LogEntry.scraping p _ => p == k
  | _ => false

/-- The diagnostics one node contributes through its download call; they
do not depend on the sequence index, because the printed line mentions
only the url and the exception message. -/
def dlLogs (node : Node) (net : String → NetOutcome) : List LogEntry :=
  match node.imageSrc with
  | none => []
  | some u =>
    if u.isEmpty then []
    else
      match net u with
      | NetOutcome.resp _ => []
      | NetOutcome.exc m => [LogEntry.errorDownload u m]

/-- The diagnostics printed by the item loop over a node sequence. -/
def itemLogs (net : String → NetOutcome) : List Node → List LogEntry
  | [] => []
  | n :: ns =>
    (if n.stale then [LogEntry.errorItem] else dlLogs n net) ++ itemLogs net ns

/-- The console output of the page loop over a list of page indices. -/
def pagesLogs (driver : Nat → PageLoad) (net : String → NetOutcome)
    (keyword : String) : List Nat → List LogEntry
  | [] => []
  | p :: ps =>
    (LogEntry.scraping p (pageUrl keyword p) ::
      match driver p with
      | PageLoad.timeout => [LogEntry.timeoutPage p]
      | PageLoad.loaded items => itemLogs net items) ++
    pagesLogs driver net keyword ps

/-- The download call a node triggers when its image reference is
present: url from the node, folder `"images"`, filename
`f"{safe_title}_{len(products)}"`. -/
def nodeDl (n : Node) (i : Nat) (net : String → NetOutcome) : DownloadResult :=
  download_image n.imageSrc "images"
    ((if titleOf n.h2Text ≠ "N/A" then (titleOf n.h2Text).take 30 else "product")
      ++ "_" ++ toString i) net

/-- A network oracle on which every GET succeeds with status 200. -/
def wNet200 : String → NetOutcome := fun _ => NetOutcome.resp 200

/-- A network oracle on which every GET returns HTTP 404. -/
def net404 : String → NetOutcome := fun _ => NetOutcome.resp 404

/-- A concrete node with every element and attribute absent. -/
def wNodeEmpty : Node := ⟨none, none, none, none, none, false⟩

/-- A concrete fully populated node. -/
def wNodeFull : Node :=
  ⟨some "Gaming Laptop", some "999", some "99",
   some "4.5 out of 5 stars", some "http://x/img.jpg", false⟩

/-- A concrete page oracle where page 1 times out and every later page
loads with no matching items. -/
def wDriver : Nat → PageLoad :=
  fun p => if p = 1 then PageLoad.timeout else PageLoad.loaded []

/-! ### Behaviour of `download_image` -/

theorem download_image_none_eq (folder fn : String) (net : String → NetOutcome) :
    download_image none folder fn net = ⟨none, 0, [], []⟩ := rfl

theorem download_image_resp_ok (u folder fn : String) (net : String → NetOutcome)
    (hu : u.isEmpty = false) (h : net u = NetOutcome.resp 200) :
    download_image (some u) folder fn net =
      ⟨some (cleanFilename fn ++ ".jpg"), 1,
       [folder ++ "/" ++ (cleanFilename fn ++ ".jpg")], []⟩ := by
  simp [download_image, hu, h, String.append_assoc]

theorem download_image_resp_fail (u folder fn : String) (net : String → NetOutcome)
    (status : Nat) (hu : u.isEmpty = false) (h : net u = NetOutcome.resp status)
    (h2 : status ≠ 200) :
    download_image (some u) folder fn net = ⟨none, 1, [], []⟩ := by
  simp [download_image, hu, h, h2]

theorem download_image_exc (u folder fn msg : String) (net : String → NetOutcome)
    (hu : u.isEmpty = false) (h : net u = NetOutcome.exc msg) :
    download_image (some u) folder fn net =
      ⟨none, 1, [], [LogEntry.errorDownload u msg]⟩ := by
  simp [download_image, hu, h]

theorem download_image_result_cases (u folder fn : String) (net : String → NetOutcome) :
    (download_image (some u) folder fn net).result = none ∨
    (download_image (some u) folder fn net).result =
      some (cleanFilename fn ++ ".jpg") := by
  by_cases hu : u.isEmpty = true
  · left; simp [download_image, hu]
  · have hu' : u.isEmpty = false := by simpa using hu
    cases h : net u with
    | resp status =>
      by_cases h2 : status = 200
      · subst h2
        right; rw [download_image_resp_ok u folder fn net hu' h]
      · left; rw [download_image_resp_fail u folder fn net status hu' h h2]
    | exc msg => left; rw [download_image_exc u folder fn msg net hu' h]

theorem download_image_logs_eq (u folder fn : String) (net : String → NetOutcome)
    (hu : u.isEmpty = false) :
    (download_image (some u) folder fn net).logs =
      (match net u with
       | NetOutcome.resp _ => []
       | NetOutcome.exc m => [LogEntry.errorDownload u m]) := by
  cases h : net u with
  | resp status =>
    by_cases h2 : status = 200
    · subst h2; rw [download_image_resp_ok u folder fn net hu h]
    · rw [download_image_resp_fail u folder fn net status hu h h2]
  | exc msg => rw [download_image_exc u folder fn msg net hu h]

/-! ### Behaviour of `extract` -/

theorem extract_stale (n : Node) (i : Nat) (net : String → NetOutcome)
    (hs : n.stale = true) : extract n i net = none := by
  simp [extract, hs]

theorem extract_image_none (n : Node) (i : Nat) (net : String → NetOutcome)
    (hs : n.stale = false) (himg : n.imageSrc = none) :
    extract n i net =
      some (⟨titleOf n.h2Text, priceOf n.priceWhole n.priceFraction,
             ratingOf n.iconAlt, some "N/A"⟩, ⟨0, 0, [], []⟩) := by
  simp [extract, hs, himg]

theorem extract_image_empty (n : Node) (i : Nat) (net : String → NetOutcome)
    (u : String) (hs : n.stale = false) (himg : n.imageSrc = some u)
    (hu : u.isEmpty = true) :
    extract n i net =
      some (⟨titleOf n.h2Text, priceOf n.priceWhole n.priceFraction,
             ratingOf n.iconAlt, some "N/A"⟩, ⟨0, 0, [], []⟩) := by
  simp [extract, hs, himg, hu]

theorem extract_image_some (n : Node) (i : Nat) (net : String → NetOutcome)
    (u : String) (hs : n.stale = false) (himg : n.imageSrc = some u)
    (hu : u.isEmpty = false) :
    extract n i net =
      some (⟨titleOf n.h2Text, priceOf n.priceWhole n.priceFraction,
             ratingOf n.iconAlt, (nodeDl n i net).result⟩,
            ⟨1, (nodeDl n i net).netCalls, (nodeDl n i net).files,
             (nodeDl n i net).logs⟩) := by
  simp [extract, nodeDl, hs, himg, hu]

theorem extract_some_of_not_stale (n : Node) (i : Nat) (net : String → NetOutcome)
    (hs : n.stale = false) : ∃ r eff, extract n i net = some (r, eff) := by
  cases himg : n.imageSrc with
  | none => exact ⟨_, _, extract_image_none n i net hs himg⟩
  | some u =>
    by_cases hu : u.isEmpty = true
    · exact ⟨_, _, extract_image_empty n i net u hs himg hu⟩
    · exact ⟨_, _, extract_image_some n i net u hs himg (by simpa using hu)⟩

theorem extract_eq_none_iff (n : Node) (i : Nat) (net : String → NetOutcome) :
    extract n i net = none ↔ n.stale = true := by
  constructor
  · intro hnone
    cases hs : n.stale with
    | false =>
      obtain ⟨r, eff, h⟩ := extract_some_of_not_stale n i net hs
      rw [h] at hnone
      cases hnone
    | true => rfl
  · intro hs
    exact extract_stale n i net hs

theorem extract_fields (n : Node) (i : Nat) (net : String → NetOutcome)
    (r : ProductRecord) (eff : ExtractEff) (h : extract n i net = some (r, eff)) :
    r.title = titleOf n.h2Text ∧
    r.price = priceOf n.priceWhole n.priceFraction ∧
    r.rating = ratingOf n.iconAlt := by
  cases hs : n.stale with
  | true =>
    rw [extract_stale n i net hs] at h
    cases h
  | false =>
    cases himg : n.imageSrc with
    | none =>
      rw [extract_image_none n i net hs himg] at h
      simp only [Option.some.injEq, Prod.mk.injEq] at h
      obtain ⟨h1, _⟩ := h
      subst h1
      exact ⟨rfl, rfl, rfl⟩
    | some u =>
      by_cases hu : u.isEmpty = true
      · rw [extract_image_empty n i net u hs himg hu] at h
        simp only [Option.some.injEq, Prod.mk.injEq] at h
        obtain ⟨h1, _⟩ := h
        subst h1
        exact ⟨rfl, rfl, rfl⟩
      · rw [extract_image_some n i net u hs himg (by simpa using hu)] at h
        simp only [Option.some.injEq, Prod.mk.injEq] at h
        obtain ⟨h1, _⟩ := h
        subst h1
        exact ⟨rfl, rfl, rfl⟩

/-! ### Per-field fallback shapes -/

theorem titleOf_cases (o : Option String) :
    titleOf o = "N/A" ∨ ∃ t, o = some t ∧ titleOf o = t.trim := by
  cases o with
  | none => exact Or.inl rfl
  | some t => exact Or.inr ⟨t, rfl, rfl⟩

theorem priceOf_cases (w f : Option String) :
    ((w = none ∨ f = none) ∧ priceOf w f = "N/A") ∨
    (∃ a b, w = some a ∧ f = some b ∧ priceOf w f = "$" ++ a ++ "." ++ b) := by
  cases w with
  | none => exact Or.inl ⟨Or.inl rfl, rfl⟩
  | some a =>
    cases f with
    | none => exact Or.inl ⟨Or.inr rfl, rfl⟩
    | some b => exact Or.inr ⟨a, b, rfl, rfl, rfl⟩

theorem price_concat_ne_sentinel (w f : String) : "$" ++ w ++ "." ++ f ≠ "N/A" := by
  intro h
  have hd := congrArg String.data h
  simp only [String.data_append] at hd
  simp only [List.append_assoc, List.singleton_append] at hd
  injection hd with h1 _
  exact absurd h1 (by decide)

/-! ### `split(' ')[0]` is the substring before the first space -/

theorem pySplit_headD_eq (sep : Char) (l : List Char) :
    (pySplit sep l).headD [] = l.takeWhile (fun c => !(c == sep)) := by
  induction l with
  | nil => rfl
  | cons c cs ih =>
    by_cases hc : c = sep
    · subst hc
      simp [pySplit, List.takeWhile_cons]
    · have hsplit : pySplit sep (c :: cs) =
          match pySplit sep cs with
          | [] => [[c]]
          | t :: ts => (c :: t) :: ts := by
        simp [pySplit, hc]
      cases hps : pySplit sep cs with
      | nil =>
        rw [hps] at ih
        rw [hsplit, hps, List.takeWhile_cons]
        simp [hc, ← ih]
      | cons t ts =>
        rw [hps] at ih
        rw [hsplit, hps, List.takeWhile_cons]
        simp only [List.headD] at ih ⊢
        simp [hc, ← ih]

theorem ratingOf_eq_takeWhile (s : String) :
    ratingOf (some s) = String.mk (s.data.takeWhile (fun c => !(c == ' '))) := by
  show String.mk ((pySplit ' ' s.data).headD []) = _
  rw [pySplit_headD_eq]

/-! ### Sanitized filenames -/

theorem head?_dropWhile_not {α : Type} (p : α → Bool) (l : List α) (a : α)
    (h : (l.dropWhile p).head? = some a) : p a = false := by
  induction l with
  | nil => simp at h
  | cons x xs ih =>
    rw [List.dropWhile_cons] at h
    by_cases hx : p x = true
    · rw [if_pos hx] at h
      exact ih h
    · rw [if_neg hx] at h
      simp only [List.head?_cons, Option.some.injEq] at h
      subst h
      simpa using hx

theorem pyRstrip_sublist (l : List Char) : (pyRstrip l).Sublist l := by
  have h1 : (l.reverse.dropWhile Char.isWhitespace).Sublist l.reverse :=
    List.dropWhile_sublist _
  have h2 := h1.reverse
  rwa [List.reverse_reverse] at h2

theorem mem_pyRstrip (l : List Char) (c : Char) (h : c ∈ pyRstrip l) : c ∈ l :=
  (pyRstrip_sublist l).subset h

theorem getLast?_pyRstrip (l : List Char) (a : Char)
    (h : (pyRstrip l).getLast? = some a) : a.isWhitespace = false := by
  rw [List.getLast?_eq_head?_reverse] at h
  rw [show (pyRstrip l).reverse = l.reverse.dropWhile Char.isWhitespace by
        simp [pyRstrip]] at h
  exact head?_dropWhile_not _ _ _ h

theorem cleanFilename_data (s : String) :
    (cleanFilename s).data = pyRstrip (s.data.filter keepChar) := rfl

theorem cleanFilename_chars (s : String) (c : Char) (h : c ∈ (cleanFilename s).data) :
    c.isAlphanum ∨ c = ' ' ∨ c = '.' ∨ c = '_' := by
  rw [cleanFilename_data] at h
  have h2 := mem_pyRstrip _ _ h
  have h3 := (List.mem_filter.mp h2).2
  simp only [keepChar, Bool.or_eq_true, beq_iff_eq] at h3
  tauto

theorem cleanFilename_no_trailing (s : String) (a : Char)
    (h : (cleanFilename s).data.getLast? = some a) : a.isWhitespace = false := by
  rw [cleanFilename_data] at h
  exact getLast?_pyRstrip _ _ h

theorem cleanFilename_sub (s : String) : (cleanFilename s).data.Sublist s.data := by
  rw [cleanFilename_data]
  exact (pyRstrip_sublist _).trans (List.filter_sublist _)

/-! ### The harvesting loop -/

theorem extract_eff_logs (n : Node) (i : Nat) (net : String → NetOutcome)
    (r : ProductRecord) (eff : ExtractEff) (h : extract n i net = some (r, eff)) :
    eff.logs = dlLogs n net := by
  cases hs : n.stale with
  | true =>
    rw [extract_stale n i net hs] at h
    cases h
  | false =>
    cases himg : n.imageSrc with
    | none =>
      rw [extract_image_none n i net hs himg] at h
      simp only [Option.some.injEq, Prod.mk.injEq] at h
      obtain ⟨_, h2⟩ := h
      subst h2
      simp [dlLogs, himg]
    | some u =>
      by_cases hu : u.isEmpty = true
      · rw [extract_image_empty n i net u hs himg hu] at h
        simp only [Option.some.injEq, Prod.mk.injEq] at h
        obtain ⟨_, h2⟩ := h
        subst h2
        simp [dlLogs, himg, hu]
      · have hu' : u.isEmpty = false := by simpa using hu
        rw [extract_image_some n i net u hs himg hu'] at h
        simp only [Option.some.injEq, Prod.mk.injEq] at h
        obtain ⟨_, h2⟩ := h
        subst h2
        show (nodeDl n i net).logs = dlLogs n net
        rw [nodeDl, himg, download_image_logs_eq _ _ _ _ hu']
        simp [dlLogs, himg, hu']

theorem extractSeq_append (net : String → NetOutcome) (xs ys : List Node) :
    ∀ i, extractSeq net (xs ++ ys) i =
      extractSeq net xs i ++ extractSeq net ys (i + (extractSeq net xs i).length) := by
  induction xs with
  | nil => intro i; simp [extractSeq]
  | cons n ns ih =>
    intro i
    rw [List.cons_append]
    cases h : extract n i net with
    | none =>
      simp only [extractSeq, h]
      exact ih i
    | some re =>
      obtain ⟨r, eff⟩ := re
      simp only [extractSeq, h]
      rw [ih (i + 1)]
      simp only [List.cons_append, List.length_cons]
      have harith : i + 1 + (extractSeq net ns (i + 1)).length =
          i + ((extractSeq net ns (i + 1)).length + 1) := by omega
      rw [harith]

theorem extractSeq_length (net : String → NetOutcome) (xs : List Node) :
    ∀ i, (extractSeq net xs i).length = (xs.filter (fun n => !n.stale)).length := by
  induction xs with
  | nil => intro i; rfl
  | cons n ns ih =>
    intro i
    cases hs : n.stale with
    | true =>
      have h := extract_stale n i net hs
      simp only [extractSeq, h]
      rw [ih i]
      simp [List.filter_cons, hs]
    | false =>
      obtain ⟨r, eff, h⟩ := extract_some_of_not_stale n i net hs
      simp only [extractSeq, h]
      simp [List.filter_cons, hs, ih (i + 1)]

theorem foldl_stepItem_products (net : String → NetOutcome) (items : List Node) :
    ∀ st : RunState, (items.foldl (stepItem net) st).products =
      st.products ++ extractSeq net items st.products.length := by
  induction items with
  | nil => intro st; simp [extractSeq]
  | cons n ns ih =>
    intro st
    rw [List.foldl_cons]
    cases h : extract n st.products.length net with
    | none =>
      have hstep : stepItem net st n =
          { st with logs := st.logs ++ [LogEntry.errorItem] } := by
        simp [stepItem, h]
      rw [hstep, ih]
      show st.products ++ _ = st.products ++ _
      simp only [extractSeq, h]
    | some re =>
      obtain ⟨r, eff⟩ := re
      have hstep : stepItem net st n =
          ⟨st.products ++ [r], st.fetchCalls + eff.fetchCalls,
           st.netCalls + eff.netCalls, st.files ++ eff.files,
           st.logs ++ eff.logs⟩ := by
        simp [stepItem, h]
      rw [hstep, ih]
      show (st.products ++ [r]) ++
          extractSeq net ns (st.products ++ [r]).length = _
      simp only [extractSeq, h, List.length_append, List.length_cons,
        List.length_nil, List.append_assoc, List.singleton_append]

theorem foldl_stepItem_logs (net : String → NetOutcome) (items : List Node) :
    ∀ st : RunState, (items.foldl (stepItem net) st).logs =
      st.logs ++ itemLogs net items := by
  induction items with
  | nil => intro st; simp [itemLogs]
  | cons n ns ih =>
    intro st
    rw [List.foldl_cons]
    cases hs : n.stale with
    | true =>
      have h := extract_stale n st.products.length net hs
      have hstep : stepItem net st n =
          { st with logs := st.logs ++ [LogEntry.errorItem] } := by
        simp [stepItem, h]
      rw [hstep, ih]
      simp [itemLogs, hs, List.append_assoc]
    | false =>
      obtain ⟨r, eff, h⟩ := extract_some_of_not_stale n st.products.length net hs
      have hlogs := extract_eff_logs n st.products.length net r eff h
      have hstep : stepItem net st n =
          ⟨st.products ++ [r], st.fetchCalls + eff.fetchCalls,
           st.netCalls + eff.netCalls, st.files ++ eff.files,
           st.logs ++ eff.logs⟩ := by
        simp [stepItem, h]
      rw [hstep, ih]
      simp [itemLogs, hs, hlogs, List.append_assoc]

theorem foldl_stepPage_products (driver : Nat → PageLoad) (net : String → NetOutcome)
    (kw : String) (ps : List Nat) :
    ∀ st : RunState, (ps.foldl (stepPage driver net kw) st).products =
      st.products ++
        extractSeq net (ps.flatMap (pageNodes driver)) st.products.length := by
  induction ps with
  | nil => intro st; simp [extractSeq]
  | cons p ps ih =>
    intro st
    rw [List.foldl_cons, List.flatMap_cons]
    cases hd : driver p with
    | timeout =>
      have hstep : stepPage driver net kw st p =
          { st with logs := (st.logs ++ [LogEntry.scraping p (pageUrl kw p)]) ++
                      [LogEntry.timeoutPage p] } := by
        simp [stepPage, hd]
      rw [hstep, ih]
      have hpn : pageNodes driver p = [] := by simp [pageNodes, hd]
      rw [hpn, List.nil_append]
    | loaded items =>
      have hstep : stepPage driver net kw st p =
          items.foldl (stepItem net)
            { st with logs := st.logs ++ [LogEntry.scraping p (pageUrl kw p)] } := by
        simp [stepPage, hd]
      rw [hstep, ih, foldl_stepItem_products]
      have hpn : pageNodes driver p = items := by simp [pageNodes, hd]
      rw [hpn, extractSeq_append]
      show (st.products ++ _) ++ _ = _
      simp only [List.length_append, List.append_assoc]

theorem foldl_stepPage_logs (driver : Nat → PageLoad) (net : String → NetOutcome)
    (kw : String) (ps : List Nat) :
    ∀ st : RunState, (ps.foldl (stepPage driver net kw) st).logs =
      st.logs ++ pagesLogs driver net kw ps := by
  induction ps with
  | nil => intro st; simp [pagesLogs]
  | cons p ps ih =>
    intro st
    rw [List.foldl_cons]
    cases hd : driver p with
    | timeout =>
      have hstep : stepPage driver net kw st p =
          { st with logs := (st.logs ++ [LogEntry.scraping p (pageUrl kw p)]) ++
                      [LogEntry.timeoutPage p] } := by
        simp [stepPage, hd]
      rw [hstep, ih]
      simp [pagesLogs, hd, List.append_assoc]
    | loaded items =>
      have hstep : stepPage driver net kw st p =
          items.foldl (stepItem net)
            { st with logs := st.logs ++ [LogEntry.scraping p (pageUrl kw p)] } := by
        simp [stepPage, hd]
      rw [hstep, ih, foldl_stepItem_logs]
      simp [pagesLogs, hd, List.append_assoc]

theorem get_products_products_eq (driver : Nat → PageLoad) (kw : String)
    (pages : Nat) (net : String → NetOutcome) :
    (get_products driver kw pages net).products =
      extractSeq net (harvestNodes driver pages) 0 := by
  show ((List.range' 1 pages).foldl (stepPage driver net kw) initState).products = _
  rw [foldl_stepPage_products]
  rfl

theorem get_products_logs_eq (driver : Nat → PageLoad) (kw : String)
    (pages : Nat) (net : String → NetOutcome) :
    (get_products driver kw pages net).logs =
      pagesLogs driver net kw (List.range' 1 pages) := by
  show ((List.range' 1 pages).foldl (stepPage driver net kw) initState).logs = _
  rw [foldl_stepPage_logs]
  rfl

/-! ### Counting the scraping lines -/

theorem countP_isScraping_dlLogs (n : Node) (net : String → NetOutcome) (k : Nat) :
    (dlLogs n net).countP (isScraping k) = 0 := by
  cases himg : n.imageSrc with
  | none => simp [dlLogs, himg]
  | some u =>
    by_cases hu : u.isEmpty = true
    · simp [dlLogs, himg, hu]
    · cases hnet : net u with
      | resp s => simp [dlLogs, himg, hu, hnet]
      | exc m => simp [dlLogs, himg, hu, hnet, isScraping]

theorem countP_isScraping_itemLogs (net : String → NetOutcome) (k : Nat)
    (items : List Node) : (itemLogs net items).countP (isScraping k) = 0 := by
  induction items with
  | nil => rfl
  | cons n ns ih =>
    simp only [itemLogs]
    rw [List.countP_append, ih]
    cases hs : n.stale with
    | true => simp [isScraping]
    | false => simp [countP_isScraping_dlLogs]

theorem countP_isScraping_pagesLogs (driver : Nat → PageLoad)
    (net : String → NetOutcome) (kw : String) (k : Nat) (ps : List Nat) :
    (pagesLogs driver net kw ps).countP (isScraping k) = ps.count k := by
  induction ps with
  | nil => rfl
  | cons p ps ih =>
    simp only [pagesLogs]
    rw [List.countP_append, ih, List.count_cons, List.countP_cons]
    have hx : (match driver p with
        | PageLoad.timeout => [LogEntry.timeoutPage p]
        | PageLoad.loaded items => itemLogs net items).countP (isScraping k) = 0 := by
      cases hd : driver p with
      | timeout => simp [isScraping]
      | loaded items => simp [countP_isScraping_itemLogs]
    rw [hx]
    show 0 + (if (p == k) = true then 1 else 0) + ps.count k = _
    omega

theorem count_range'_eq (k s n : Nat) :
    (List.range' s n).count k = if s ≤ k ∧ k < s + n then 1 else 0 := by
  by_cases h : s ≤ k ∧ k < s + n
  · rw [if_pos h]
    exact List.count_eq_one_of_mem (List.nodup_range' s n) (List.mem_range'_1.mpr h)
  · rw [if_neg h]
    exact List.count_eq_zero_of_not_mem (fun hm => h (List.mem_range'_1.mp hm))

/-! ### Membership in the log stream -/

theorem scraping_mem_pagesLogs (driver : Nat → PageLoad) (net : String → NetOutcome)
    (kw : String) (k : Nat) (ps : List Nat) (hk : k ∈ ps) :
    LogEntry.scraping k (pageUrl kw k) ∈ pagesLogs driver net kw ps := by
  induction ps with
  | nil => cases hk
  | cons p ps ih =>
    simp only [pagesLogs]
    rcases List.mem_cons.mp hk with h | h
    · subst h
      exact List.mem_append_left _ (List.mem_cons_self _ _)
    · exact List.mem_append_right _ (ih h)

theorem timeoutLog_mem_pagesLogs (driver : Nat → PageLoad) (net : String → NetOutcome)
    (kw : String) (k : Nat) (ps : List Nat) (hk : k ∈ ps)
    (ht : driver k = PageLoad.timeout) :
    LogEntry.timeoutPage k ∈ pagesLogs driver net kw ps := by
  induction ps with
  | nil => cases hk
  | cons p ps ih =>
    simp only [pagesLogs]
    rcases List.mem_cons.mp hk with h | h
    · subst h
      apply List.mem_append_left
      simp [ht]
    · exact List.mem_append_right _ (ih h)

theorem flatMap_congr_on {α β : Type} (f g : α → List β) (ps : List α)
    (h : ∀ p ∈ ps, f p = g p) : ps.flatMap f = ps.flatMap g := by
  induction ps with
  | nil => rfl
  | cons p ps ih =>
    rw [List.flatMap_cons, List.flatMap_cons, h p (List.mem_cons_self p ps),
        ih (fun q hq => h q (List.mem_cons_of_mem p hq))]

/-! ### Claims -/

/-- Claim C1: for every listing node whose per-node extraction completes
(the node does not raise an unexpected error), `extract` produces a
record containing exactly the four keys title, price, rating and
image_filename (the fields of `ProductRecord`), each populated with
either an extracted value or a not-found sentinel; failure to extract
any one field never prevents extraction of the other fields or the
construction of the record. -/
theorem claim_C1 (node : Node) (idx : Nat) (net : String → NetOutcome)
    (h : node.stale = false) :
    ∃ r eff, extract node idx net = some (r, eff) ∧
      (r.title = "N/A" ∨ ∃ t, node.h2Text = some t ∧ r.title = t.trim) ∧
      (r.price = "N/A" ∨ ∃ w f, node.priceWhole = some w ∧
        node.priceFraction = some f ∧ r.price = "$" ++ w ++ "." ++ f) ∧
      (r.rating = "N/A" ∨ ∃ s, node.iconAlt = some s ∧
        r.rating = String.mk (s.data.takeWhile (fun c => !(c == ' ')))) ∧
      (r.image_filename = some "N/A" ∨ r.image_filename = none ∨
        ∃ nm, r.image_filename = some (nm ++ ".jpg")) := by
  obtain ⟨r, eff, hx⟩ := extract_some_of_not_stale node idx net h
  obtain ⟨ht, hp, hr⟩ := extract_fields node idx net r eff hx
  refine ⟨r, eff, hx, ?_, ?_, ?_, ?_⟩
  · rw [ht]
    rcases titleOf_cases node.h2Text with h1 | ⟨t, h1, h2⟩
    · exact Or.inl h1
    · exact Or.inr ⟨t, h1, h2⟩
  · rw [hp]
    rcases priceOf_cases node.priceWhole node.priceFraction with
      ⟨_, h1⟩ | ⟨a, b, h1, h2, h3⟩
    · exact Or.inl h1
    · exact Or.inr ⟨a, b, h1, h2, h3⟩
  · rw [hr]
    cases ha : node.iconAlt with
    | none => exact Or.inl rfl
    | some s => exact Or.inr ⟨s, rfl, ratingOf_eq_takeWhile s⟩
  · cases himg : node.imageSrc with
    | none =>
      rw [extract_image_none node idx net h himg] at hx
      simp only [Option.some.injEq, Prod.mk.injEq] at hx
      obtain ⟨h1, _⟩ := hx
      exact Or.inl (by rw [← h1])
    | some u =>
      by_cases hu : u.isEmpty = true
      · rw [extract_image_empty node idx net u h himg hu] at hx
        simp only [Option.some.injEq, Prod.mk.injEq] at hx
        obtain ⟨h1, _⟩ := hx
        exact Or.inl (by rw [← h1])
      · have hu' : u.isEmpty = false := by simpa using hu
        rw [extract_image_some node idx net u h himg hu'] at hx
        simp only [Option.some.injEq, Prod.mk.injEq] at hx
        obtain ⟨h1, _⟩ := hx
        have himgf : r.image_filename = (nodeDl node idx net).result := by
          rw [← h1]
        have hnd : nodeDl node idx net =
            download_image (some u) "images"
              ((if titleOf node.h2Text ≠ "N/A" then (titleOf node.h2Text).take 30
                else "product") ++ "_" ++ toString idx) net := by
          rw [nodeDl, himg]
        rcases download_image_result_cases u "images"
            ((if titleOf node.h2Text ≠ "N/A" then (titleOf node.h2Text).take 30
              else "product") ++ "_" ++ toString idx) net with hres | hres
        · refine Or.inr (Or.inl ?_)
          rw [himgf, hnd]
          exact hres
        · refine Or.inr (Or.inr ⟨cleanFilename
            ((if titleOf node.h2Text ≠ "N/A" then (titleOf node.h2Text).take 30
              else "product") ++ "_" ++ toString idx), ?_⟩)
          rw [himgf, hnd]
          exact hres

/-- Concrete instance of claim C1, at a node with every element and
attribute absent. -/
theorem claim_C1_witness :
    ∃ r eff, extract wNodeEmpty 0 wNet200 = some (r, eff) ∧
      (r.title = "N/A" ∨ ∃ t, wNodeEmpty.h2Text = some t ∧ r.title = t.trim) ∧
      (r.price = "N/A" ∨ ∃ w f, wNodeEmpty.priceWhole = some w ∧
        wNodeEmpty.priceFraction = some f ∧ r.price = "$" ++ w ++ "." ++ f) ∧
      (r.rating = "N/A" ∨ ∃ s, wNodeEmpty.iconAlt = some s ∧
        r.rating = String.mk (s.data.takeWhile (fun c => !(c == ' ')))) ∧
      (r.image_filename = some "N/A" ∨ r.image_filename = none ∨
        ∃ nm, r.image_filename = some (nm ++ ".jpg")) :=
  claim_C1 wNodeEmpty 0 wNet200 rfl

/-- Claim C2: the ResultSet of a `get_products` run equals the in-order
extraction of the nodes discovered in strict page-then-position order
(`harvestNodes` lists them page index ascending, then in in-page
order), with no reordering; and no deduplication occurs: the number of
records equals the number of completing (non-stale) nodes discovered,
repeats included. -/
theorem claim_C2 (driver : Nat → PageLoad) (keyword : String) (pages : Nat)
    (net : String → NetOutcome) :
    (get_products driver keyword pages net).products =
      extractSeq net (harvestNodes driver pages) 0 ∧
    (get_products driver keyword pages net).products.length =
      ((harvestNodes driver pages).filter (fun n => !n.stale)).length := by
  constructor
  · exact get_products_products_eq driver keyword pages net
  · rw [get_products_products_eq driver keyword pages net]
    exact extractSeq_length net (harvestNodes driver pages) 0

/-- Claim C3: the extracted price is the sentinel exactly when the whole
or the fraction sub-element is absent, and otherwise is the
concatenation `$whole.fraction`; a partial price built from only one
sub-element is never emitted. -/
theorem claim_C3 (node : Node) (idx : Nat) (net : String → NetOutcome)
    (h : node.stale = false) :
    ∃ r eff, extract node idx net = some (r, eff) ∧
      (((node.priceWhole = none ∨ node.priceFraction = none) ∧ r.price = "N/A") ∨
        (∃ w f, node.priceWhole = some w ∧ node.priceFraction = some f ∧
          r.price = "$" ++ w ++ "." ++ f)) ∧
      (r.price = "N/A" ↔ (node.priceWhole = none ∨ node.priceFraction = none)) := by
  obtain ⟨r, eff, hx⟩ := extract_some_of_not_stale node idx net h
  obtain ⟨_, hp, _⟩ := extract_fields node idx net r eff hx
  refine ⟨r, eff, hx, ?_, ?_⟩
  · rw [hp]
    exact priceOf_cases _ _
  · rw [hp]
    constructor
    · intro hna
      rcases priceOf_cases node.priceWhole node.priceFraction with
        ⟨h1, _⟩ | ⟨a, b, _, _, h3⟩
      · exact h1
      · rw [h3] at hna
        exact absurd hna (price_concat_ne_sentinel a b)
    · intro h1
      rcases h1 with h1 | h1
      · rw [h1]
        rfl
      · rw [h1]
        cases node.priceWhole <;> rfl

/-- Concrete instance of claim C3, at a fully populated node. -/
theorem claim_C3_witness :
    ∃ r eff, extract wNodeFull 0 wNet200 = some (r, eff) ∧
      (((wNodeFull.priceWhole = none ∨ wNodeFull.priceFraction = none) ∧
          r.price = "N/A") ∨
        (∃ w f, wNodeFull.priceWhole = some w ∧ wNodeFull.priceFraction = some f ∧
          r.price = "$" ++ w ++ "." ++ f)) ∧
      (r.price = "N/A" ↔ (wNodeFull.priceWhole = none ∨
        wNodeFull.priceFraction = none)) :=
  claim_C3 wNodeFull 0 wNet200 rfl

/-- Claim C4: when the wait on page `k` (with `1 ≤ k ≤ pages`) times
out, the timeout is logged, page `k` is visited exactly once (not
retried), every page index from 1 to `pages` is still visited, and the
records of the run are the same as if page `k` had loaded with zero
items: page `k` contributes zero records without stopping later
pages. -/
theorem claim_C4 (driver : Nat → PageLoad) (keyword : String) (pages : Nat)
    (net : String → NetOutcome) (k : Nat) (h1 : 1 ≤ k) (h2 : k ≤ pages)
    (ht : driver k = PageLoad.timeout) :
    LogEntry.timeoutPage k ∈ (get_products driver keyword pages net).logs ∧
    (get_products driver keyword pages net).logs.countP (isScraping k) = 1 ∧
    (∀ j, 1 ≤ j → j ≤ pages →
      LogEntry.scraping j (pageUrl keyword j) ∈
        (get_products driver keyword pages net).logs) ∧
    (get_products driver keyword pages net).products =
      (get_products (fun p => if p = k then PageLoad.loaded [] else driver p)
        keyword pages net).products := by
  have hk : k ∈ List.range' 1 pages := List.mem_range'_1.mpr ⟨h1, by omega⟩
  refine ⟨?_, ?_, ?_, ?_⟩
  · rw [get_products_logs_eq]
    exact timeoutLog_mem_pagesLogs driver net keyword k _ hk ht
  · rw [get_products_logs_eq, countP_isScraping_pagesLogs, count_range'_eq]
    rw [if_pos ⟨h1, by omega⟩]
  · intro j hj1 hj2
    rw [get_products_logs_eq]
    exact scraping_mem_pagesLogs driver net keyword j _
      (List.mem_range'_1.mpr ⟨hj1, by omega⟩)
  · rw [get_products_products_eq, get_products_products_eq]
    unfold harvestNodes
    have hnodes : (List.range' 1 pages).flatMap (pageNodes driver) =
        (List.range' 1 pages).flatMap
          (pageNodes (fun p => if p = k then PageLoad.loaded [] else driver p)) := by
      apply flatMap_congr_on
      intro p hp
      by_cases hpk : p = k
      · subst hpk
        simp [pageNodes, ht]
      · simp [pageNodes, hpk]
    rw [hnodes]

/-- Concrete instance of claim C4: two pages, the first times out. -/
theorem claim_C4_witness :
    LogEntry.timeoutPage 1 ∈ (get_products wDriver "laptop" 2 wNet200).logs ∧
    (get_products wDriver "laptop" 2 wNet200).logs.countP (isScraping 1) = 1 ∧
    (∀ j, 1 ≤ j → j ≤ 2 →
      LogEntry.scraping j (pageUrl "laptop" j) ∈
        (get_products wDriver "laptop" 2 wNet200).logs) ∧
    (get_products wDriver "laptop" 2 wNet200).products =
      (get_products (fun p => if p = 1 then PageLoad.loaded [] else wDriver p)
        "laptop" 2 wNet200).products :=
  claim_C4 wDriver "laptop" 2 wNet200 1 (by decide) (by decide) rfl

/-- Claim C5 (amended): for a present URL only HTTP 200 counts as
success; any other status, a timeout, or a transport error yields the
sentinel outcome with no file written and no raised failure visible to
the caller; a diagnostic is logged only for a timeout or transport
error, while a non-200 status (such as HTTP 404) returns the sentinel
silently. -/
theorem claim_C5 (u folder fn : String) (net : String → NetOutcome)
    (hu : u.isEmpty = false) :
    (∀ status, net u = NetOutcome.resp status → status ≠ 200 →
      download_image (some u) folder fn net = ⟨none, 1, [], []⟩) ∧
    (∀ msg, net u = NetOutcome.exc msg →
      download_image (some u) folder fn net =
        ⟨none, 1, [], [LogEntry.errorDownload u msg]⟩) := by
  constructor
  · intro status hst h200
    exact download_image_resp_fail u folder fn net status hu hst h200
  · intro msg hmsg
    exact download_image_exc u folder fn msg net hu hmsg

/-- Concrete instance of claim C5: an HTTP 404 response yields the
sentinel, one network call, no file write and an empty log. -/
theorem claim_C5_witness :
    download_image (some "http://x/img.jpg") "images" "product_0" net404 =
      ⟨none, 1, [], []⟩ :=
  (claim_C5 "http://x/img.jpg" "images" "product_0" net404 rfl).1 404 rfl
    (by decide)

/-- The claim as frozen is false on the code: it requires a logged
diagnostic together with the sentinel for any non-200 status, but on an
HTTP 404 response the code returns the sentinel with an empty log (the
diagnostic print is only reached from the exception handler). -/
theorem claim_C5_counterexample :
    ¬ ((download_image (some "http://x/img.jpg") "images" "product_0"
          net404).result = none ∧
       (download_image (some "http://x/img.jpg") "images" "product_0"
          net404).logs ≠ []) := by
  decide

/-- Claim C6: when the image source attribute is absent the record keeps
the sentinel `"N/A"` and the Asset Fetcher is never invoked for that
node (zero `download_image` calls, zero network calls, no file, no
log); and `download_image` itself, given an absent URL, returns the
sentinel immediately with no network call. -/
theorem claim_C6 :
    (∀ (node : Node) (idx : Nat) (net : String → NetOutcome),
      node.stale = false → node.imageSrc = none →
      ∃ r, extract node idx net = some (r, ⟨0, 0, [], []⟩) ∧
        r.image_filename = some "N/A") ∧
    (∀ (folder fn : String) (net : String → NetOutcome),
      download_image none folder fn net = ⟨none, 0, [], []⟩) := by
  constructor
  · intro node idx net hs himg
    exact ⟨_, extract_image_none node idx net hs himg, rfl⟩
  · intro folder fn net
    rfl

/-- Concrete instance of claim C6, at a node with no image source and at
an absent URL. -/
theorem claim_C6_witness :
    (∃ r, extract wNodeEmpty 0 wNet200 = some (r, ⟨0, 0, [], []⟩) ∧
      r.image_filename = some "N/A") ∧
    download_image none "images" "product_0" wNet200 = ⟨none, 0, [], []⟩ :=
  ⟨claim_C6.1 wNodeEmpty 0 wNet200 rfl rfl,
   claim_C6.2 "images" "product_0" wNet200⟩

/-- Claim C7: the extracted rating is the substring of the icon-alt
value before the first space (hence itself space-free), stored as-is
with no numeric validation, and is the sentinel `"N/A"` when the
attribute is absent. -/
theorem claim_C7 (node : Node) (idx : Nat) (net : String → NetOutcome)
    (h : node.stale = false) :
    ∃ r eff, extract node idx net = some (r, eff) ∧
      ((node.iconAlt = none ∧ r.rating = "N/A") ∨
        (∃ s, node.iconAlt = some s ∧
          r.rating = String.mk (s.data.takeWhile (fun c => !(c == ' '))) ∧
          ∀ c ∈ r.rating.data, c ≠ ' ')) := by
  obtain ⟨r, eff, hx⟩ := extract_some_of_not_stale node idx net h
  obtain ⟨_, _, hr⟩ := extract_fields node idx net r eff hx
  refine ⟨r, eff, hx, ?_⟩
  cases ha : node.iconAlt with
  | none =>
    left
    refine ⟨rfl, ?_⟩
    rw [hr, ha]
    rfl
  | some s =>
    right
    refine ⟨s, rfl, ?_, ?_⟩
    · rw [hr, ha, ratingOf_eq_takeWhile]
    · intro c hc
      rw [hr, ha, ratingOf_eq_takeWhile] at hc
      have hmem := List.mem_takeWhile_imp
        (show c ∈ List.takeWhile (fun c => !(c == ' ')) s.data from hc)
      simpa using hmem

/-- Concrete instance of claim C7, at a node whose icon-alt value is
"4.5 out of 5 stars". -/
theorem claim_C7_witness :
    ∃ r eff, extract wNodeFull 0 wNet200 = some (r, eff) ∧
      ((wNodeFull.iconAlt = none ∧ r.rating = "N/A") ∨
        (∃ s, wNodeFull.iconAlt = some s ∧
          r.rating = String.mk (s.data.takeWhile (fun c => !(c == ' '))) ∧
          ∀ c ∈ r.rating.data, c ≠ ' ')) :=
  claim_C7 wNodeFull 0 wNet200 rfl

/-- Claim C8: on a successful (status 200) fetch the stored and returned
filename is the desired name with only alphanumerics, spaces, periods
and underscores retained and trailing whitespace trimmed, plus the
fixed ".jpg" extension; the return value is the bare filename while the
file write targets the folder-qualified path. -/
theorem claim_C8 (u folder fn : String) (net : String → NetOutcome)
    (hu : u.isEmpty = false) (h200 : net u = NetOutcome.resp 200) :
    (download_image (some u) folder fn net).result =
      some (cleanFilename fn ++ ".jpg") ∧
    (download_image (some u) folder fn net).files =
      [folder ++ "/" ++ (cleanFilename fn ++ ".jpg")] ∧
    (∀ c ∈ (cleanFilename fn).data, c.isAlphanum ∨ c = ' ' ∨ c = '.' ∨ c = '_') ∧
    (∀ a, (cleanFilename fn).data.getLast? = some a → a.isWhitespace = false) ∧
    (cleanFilename fn).data.Sublist fn.data := by
  rw [download_image_resp_ok u folder fn net hu h200]
  exact ⟨rfl, rfl, fun c hc => cleanFilename_chars fn c hc,
    fun a ha => cleanFilename_no_trailing fn a ha, cleanFilename_sub fn⟩

/-- Concrete instance of claim C8: the desired name "My Laptop #1 "
is stored and returned as "My Laptop 1.jpg". -/
theorem claim_C8_witness :
    (download_image (some "http://x/img.jpg") "images" "My Laptop #1 "
      wNet200).result = some "My Laptop 1.jpg" := by
  have h :=
    (claim_C8 "http://x/img.jpg" "images" "My Laptop #1 " wNet200 rfl rfl).1
  rw [h]
  rfl

/-- Claim C9: `save_to_csv` on an empty ResultSet writes no file and
logs a notice; on a non-empty ResultSet it derives the column schema
from the key set of the first record and writes the header row first,
followed by exactly one row per record in ResultSet order. -/
theorem claim_C9 :
    (∀ fn, (save_to_csv [] fn).file = none ∧
      (save_to_csv [] fn).logs = [LogEntry.noProducts]) ∧
    (∀ (fn : String) (r : ProductRecord) (rs : List ProductRecord),
      (save_to_csv (r :: rs) fn).file =
        some (recordKeys r :: (r :: rs).map rowOf) ∧
      (recordKeys r :: (r :: rs).map rowOf).length = (r :: rs).length + 1) := by
  constructor
  · intro fn
    exact ⟨rfl, rfl⟩
  · intro fn r rs
    refine ⟨rfl, ?_⟩
    simp

/-- Claim C10: when the image source attribute is present but the
download fails (non-200 status, timeout or transport error), the record
keeps the not-found marker `none` — a value distinct from the sentinel
`some "N/A"` used when the source attribute is absent, so the two cases
stay distinguishable in the output. -/
theorem claim_C10 (node : Node) (idx : Nat) (net : String → NetOutcome)
    (u : String) (h : node.stale = false) (hsrc : node.imageSrc = some u)
    (hne : u.isEmpty = false)
    (hfail : (∃ msg, net u = NetOutcome.exc msg) ∨
      (∃ status, net u = NetOutcome.resp status ∧ status ≠ 200)) :
    ∃ r eff, extract node idx net = some (r, eff) ∧
      r.image_filename = none ∧
      eff.fetchCalls = 1 ∧
      r.image_filename ≠ some "N/A" ∧
      (∀ (node2 : Node) (idx2 : Nat), node2.stale = false →
        node2.imageSrc = none →
        ∃ r2, extract node2 idx2 net = some (r2, ⟨0, 0, [], []⟩) ∧
          r2.image_filename = some "N/A" ∧
          r2.image_filename ≠ r.image_filename) := by
  have hdl : (nodeDl node idx net).result = none := by
    rw [nodeDl, hsrc]
    rcases hfail with ⟨msg, hmsg⟩ | ⟨status, hst, h200⟩
    · rw [download_image_exc u "images" _ msg net hne hmsg]
    · rw [download_image_resp_fail u "images" _ net status hne hst h200]
  refine ⟨_, _, extract_image_some node idx net u h hsrc hne, hdl, rfl, ?_, ?_⟩
  · show (nodeDl node idx net).result ≠ some "N/A"
    rw [hdl]
    simp
  · intro node2 idx2 hs2 himg2
    refine ⟨_, extract_image_none node2 idx2 net hs2 himg2, rfl, ?_⟩
    show some "N/A" ≠ (nodeDl node idx net).result
    rw [hdl]
    simp

/-- Concrete instance of claim C10: a populated node whose image URL
returns HTTP 404. -/
theorem claim_C10_witness :
    ∃ r eff, extract wNodeFull 0 net404 = some (r, eff) ∧
      r.image_filename = none ∧
      eff.fetchCalls = 1 ∧
      r.image_filename ≠ some "N/A" ∧
      (∀ (node2 : Node) (idx2 : Nat), node2.stale = false →
        node2.imageSrc = none →
        ∃ r2, extract node2 idx2 net404 = some (r2, ⟨0, 0, [], []⟩) ∧
          r2.image_filename = some "N/A" ∧
          r2.image_filename ≠ r.image_filename) :=
  claim_C10 wNodeFull 0 net404 "http://x/img.jpg" rfl rfl rfl
    (Or.inr ⟨404, rfl, by decide⟩)

end Scraper
